import Mathlib

/-!
Cache entry event filter: remote-filter invocation bridge.

A shallow embedding of
`modules/platforms/cpp/core/include/ignite/cache/event/cache_entry_event_filter.h`
and of the collaborators its contract is stated against.

* `ignite.cache.event.CacheEntryEventFilter` and its static member
  `InternalProcess` are translated from the header.
* The binary reader and writer, the event value, the registry (`IgniteBinding`)
  and the wire layout of invocation and response messages are declared outside
  the header; they are modelled from the specification and marked as such.
-/

set_option autoImplicit false

namespace ignite

/-- One octet of a binary stream. -/
abbrev Byte := Fin 256

/-- Modelled from the spec: the error taxonomy of section 7 (the header declares no
error type), together with the registration failure of section 4.1. -/
inductive ErrorKind where
  | CodecError
  | UnknownFilter
  | FilterError
  | TransportWriteFailure
  | RegistrationError
  deriving DecidableEq, Repr

/-- Modelled from the spec: a failure raised to the caller (a C++ exception), made of
its kind and a message. -/
structure IgniteError where
  kind : ErrorKind
  message : String
  deriving DecidableEq, Repr

/-- The octet with value `n mod 256`. -/
def byteOfNat (n : Nat) : Byte :=
  ⟨n % 256, Nat.mod_lt n (by decide)⟩

/-- Modelled from the spec: the signed 32-bit integer held by four octets, least
significant first (the byte order is owned by the codec collaborator). -/
def int32OfBytes (b0 b1 b2 b3 : Byte) : Int :=
  let n : Nat := b0.val + 256 * b1.val + 65536 * b2.val + 16777216 * b3.val
  if n < 2147483648 then (n : Int) else (n : Int) - 4294967296

/-- Modelled from the spec: the four octets of a signed 32-bit integer, least
significant first; the value is taken modulo `2^32`. -/
def int32Bytes (i : Int) : List Byte :=
  let n : Nat := (i % 4294967296).toNat
  [byteOfNat n, byteOfNat (n / 256), byteOfNat (n / 65536), byteOfNat (n / 16777216)]

/-- Modelled from the spec: the octets of a message text, one per character. -/
def stringBytes (s : String) : List Byte :=
  s.toList.map (fun c => byteOfNat c.toNat)

/-- Modelled from the spec: the text whose characters are the given octets. -/
def stringOfBytes (bs : List Byte) : String :=
  String.mk (bs.map (fun b => Char.ofNat b.val))

namespace impl
namespace binary

/-- Modelled from the spec: `impl::binary::BinaryReaderImpl` is declared outside the
header. A forward-only reader over a byte buffer: the buffer and the read position. -/
structure BinaryReaderImpl where
  data : List Byte
  pos : Nat
  deriving DecidableEq, Repr

/-- Modelled from the spec: `impl::binary::BinaryWriterImpl` is declared outside the
header. A forward-only writer: the bytes written so far. -/
structure BinaryWriterImpl where
  data : List Byte
  deriving DecidableEq, Repr

namespace BinaryReaderImpl

/-- The bytes not yet consumed. -/
def remaining (r : BinaryReaderImpl) : List Byte :=
  r.data.drop r.pos

/-- Modelled from the spec: read one octet; a truncated stream is a `CodecError`. -/
def readInt8 (r : BinaryReaderImpl) : Except IgniteError (Byte × BinaryReaderImpl) :=
  match r.remaining with
  | b :: _ => .ok (b, ⟨r.data, r.pos + 1⟩)
  | [] => .error ⟨.CodecError, "truncated stream"⟩

/-- Modelled from the spec: `Reader.readBool`, also used for the presence markers;
octet 0 is false, octet 1 is true, any other octet is a `CodecError`. -/
def readBool (r : BinaryReaderImpl) : Except IgniteError (Bool × BinaryReaderImpl) :=
  match r.readInt8 with
  | .ok (b, r1) =>
    if b.val = 0 then .ok (false, r1)
    else if b.val = 1 then .ok (true, r1)
    else .error ⟨.CodecError, "malformed boolean"⟩
  | .error e => .error e

/-- Modelled from the spec: `Reader.readInt`, a signed 32-bit integer in four octets;
fewer than four remaining octets is a `CodecError`. -/
def readInt32 (r : BinaryReaderImpl) : Except IgniteError (Int × BinaryReaderImpl) :=
  match r.remaining with
  | b0 :: b1 :: b2 :: b3 :: _ => .ok (int32OfBytes b0 b1 b2 b3, ⟨r.data, r.pos + 4⟩)
  | _ => .error ⟨.CodecError, "truncated stream"⟩

/-- Modelled from the spec: read a length-prefixed text (`len:int32 + bytes`). -/
def readString (r : BinaryReaderImpl) : Except IgniteError (String × BinaryReaderImpl) :=
  match r.readInt32 with
  | .ok (len, r1) =>
    if len < 0 then .error ⟨.CodecError, "negative length"⟩
    else if len.toNat ≤ r1.remaining.length then
      .ok (stringOfBytes (r1.remaining.take len.toNat), ⟨r1.data, r1.pos + len.toNat⟩)
    else .error ⟨.CodecError, "truncated stream"⟩
  | .error e => .error e

end BinaryReaderImpl

namespace BinaryWriterImpl

/-- Modelled from the spec: append octets to the writer. -/
def write (w : BinaryWriterImpl) (bs : List Byte) : BinaryWriterImpl :=
  ⟨w.data ++ bs⟩

end BinaryWriterImpl

end binary
end impl

open impl.binary

/-- Modelled from the spec: the paired decode and encode logic of one key or value
type (`Reader.readTyped`, `Writer.writeTyped`). -/
structure Codec (T : Type) where
  read : BinaryReaderImpl → Except IgniteError (T × BinaryReaderImpl)
  write : T → List Byte

/-- The codec of signed 32-bit integers. -/
def int32Codec : Codec Int :=
  ⟨BinaryReaderImpl.readInt32, int32Bytes⟩

namespace cache
namespace event

/-- Modelled from the spec: the kind of change an event reports. -/
inductive CacheEntryEventKind where
  | Created
  | Updated
  | Removed
  deriving DecidableEq, Repr

/-- Modelled from the spec: `CacheEntryEvent<K, V>` comes from `cache_entry_event.h`,
which is outside the given sources. One change of one cache entry. -/
structure CacheEntryEvent (K V : Type) where
  key : K
  oldValue : Option V
  newValue : Option V
  kind : CacheEntryEventKind
  cacheName : String
  deriving DecidableEq, Repr

/-- The class template `CacheEntryEventFilter<F, K, V>`: the interface a filter type `F`
implements. `Process` is the pure virtual event callback; a failure raised by the
callback is the `error` case, carrying its message. -/
structure CacheEntryEventFilter (F K V : Type) where
  Process : F → CacheEntryEvent K V → Except String Bool

/-- What one call of `InternalProcess` leaves behind: the reader and the writer it was
handed (both are passed by reference) and the events on which it invoked `Process`, in
call order. -/
structure ProcessState (K V : Type) where
  reader : BinaryReaderImpl
  writer : BinaryWriterImpl
  processCalls : List (CacheEntryEvent K V)

/-- The static member `CacheEntryEventFilter<F, K, V>::InternalProcess(reader, writer)`.
Its body in the header is empty: it reads nothing, invokes nothing, writes nothing and
raises nothing. -/
def CacheEntryEventFilter.InternalProcess {F K V : Type} (_self : CacheEntryEventFilter F K V)
    (reader : BinaryReaderImpl) (writer : BinaryWriterImpl) :
    Except IgniteError (ProcessState K V) :=
  .ok ⟨reader, writer, []⟩

end event
end cache

open cache.event

/-- Modelled from the spec: the error kinds a response message can carry. -/
inductive FaultKind where
  | UnknownFilter
  | CodecError
  | FilterError
  deriving DecidableEq, Repr

/-- Modelled from the spec: the invocation result, `Pass(bool)` or
`Fault(ErrorKind, message)`. -/
inductive InvocationResult where
  | Pass (result : Bool)
  | Fault (kind : FaultKind) (message : String)
  deriving DecidableEq, Repr

/-- Modelled from the spec: the status octet of a fault
(`1=UnknownFilter, 2=CodecError, 3=FilterError`). -/
def FaultKind.status : FaultKind → Byte
  | .UnknownFilter => 1
  | .CodecError => 2
  | .FilterError => 3

/-- Modelled from the spec: the response message
`status:int8 | if Pass: result:bool | else: messageLen:int32 + messageBytes`. -/
def encodeResponse : InvocationResult → List Byte
  | .Pass result => [0, if result then 1 else 0]
  | .Fault kind message =>
    kind.status :: (int32Bytes (stringBytes message).length ++ stringBytes message)

/-- Modelled from the spec: `FilterBinding`, one entry of the registry. `decodeKey`
reads the presence marker and the key; `decodeValue` reads a presence marker and, when
it is set, a value. -/
structure FilterBinding (F K V : Type) where
  invocationId : Int
  decodeKey : BinaryReaderImpl → Except IgniteError (K × BinaryReaderImpl)
  decodeValue : BinaryReaderImpl → Except IgniteError (Option V × BinaryReaderImpl)
  filter : F

/-- Modelled from the spec: the key closure built from a key codec
(`keyPresent:bool + key`); the key is required, so an unset marker is a `CodecError`. -/
def decodeKeyWith {K : Type} (kc : Codec K) (r : BinaryReaderImpl) :
    Except IgniteError (K × BinaryReaderImpl) :=
  match r.readBool with
  | .ok (true, r1) => kc.read r1
  | .ok (false, _) => .error ⟨.CodecError, "missing key"⟩
  | .error e => .error e

/-- Modelled from the spec: the value closure built from a value codec
(`valuePresent:bool + value`). -/
def decodeValueWith {V : Type} (vc : Codec V) (r : BinaryReaderImpl) :
    Except IgniteError (Option V × BinaryReaderImpl) :=
  match r.readBool with
  | .ok (true, r1) =>
    match vc.read r1 with
    | .ok (v, r2) => .ok (some v, r2)
    | .error e => .error e
  | .ok (false, r1) => .ok (none, r1)
  | .error e => .error e

/-- Modelled from the spec: `class IgniteBinding` is only forward-declared in the
header. The filter registry: the stored bindings and the next identifier to hand out. -/
structure IgniteBinding (F K V : Type) where
  bindings : List (FilterBinding F K V)
  nextId : Int

namespace IgniteBinding

/-- Modelled from the spec: the registry with no binding. -/
def empty (F K V : Type) : IgniteBinding F K V :=
  ⟨[], 0⟩

/-- Modelled from the spec: `lookup(invocationId)`, nothing when unregistered. -/
def lookup {F K V : Type} (reg : IgniteBinding F K V) (invocationId : Int) :
    Option (FilterBinding F K V) :=
  reg.bindings.find? (fun b => decide (b.invocationId = invocationId))

/-- Modelled from the spec: `register(filter, keyCodec, valueCodec)`. A null filter is a
`RegistrationError`; otherwise a fresh identifier is allocated, the binding stored and
the identifier returned. -/
def register {F K V : Type} (reg : IgniteBinding F K V) (filter : Option F)
    (keyCodec : Codec K) (valueCodec : Codec V) :
    Except IgniteError (Int × IgniteBinding F K V) :=
  match filter with
  | none => .error ⟨.RegistrationError, "null filter"⟩
  | some f =>
    .ok (reg.nextId,
      ⟨⟨reg.nextId, decodeKeyWith keyCodec, decodeValueWith valueCodec, f⟩ :: reg.bindings,
        reg.nextId + 1⟩)

/-- Modelled from the spec: `deregister(invocationId)` removes the binding. -/
def deregister {F K V : Type} (reg : IgniteBinding F K V) (invocationId : Int) :
    IgniteBinding F K V :=
  ⟨reg.bindings.filter (fun b => !decide (b.invocationId = invocationId)), reg.nextId⟩

end IgniteBinding

/-- Modelled from the spec: the event kind discriminant (`eventKind:int8`). -/
def decodeKind (b : Byte) : Except IgniteError CacheEntryEventKind :=
  if b.val = 0 then .ok .Created
  else if b.val = 1 then .ok .Updated
  else if b.val = 2 then .ok .Removed
  else .error ⟨.CodecError, "unknown event kind"⟩

/-- Modelled from the spec: step 3 of `dispatch`, the event part of an invocation message
`cacheNameLen:int32 + cacheNameBytes | eventKind:int8 | keyPresent:bool + key |
oldValuePresent:bool + oldValue | newValuePresent:bool + newValue`. -/
def decodeEvent {F K V : Type} (b : FilterBinding F K V) (r : BinaryReaderImpl) :
    Except IgniteError (CacheEntryEvent K V × BinaryReaderImpl) := do
  let (cacheName, r1) ← r.readString
  let (kindByte, r2) ← r1.readInt8
  let kind ← decodeKind kindByte
  let (key, r3) ← b.decodeKey r2
  let (oldValue, r4) ← b.decodeValue r3
  let (newValue, r5) ← b.decodeValue r4
  pure (⟨key, oldValue, newValue, kind, cacheName⟩, r5)

/-- The outcome `out` of a dispatch that started with `writer` returned normally, having
appended to the writer exactly the response message of `res`. -/
def WritesResponse {K V : Type} (writer : BinaryWriterImpl)
    (out : Except IgniteError (ProcessState K V)) (res : InvocationResult) : Prop :=
  ∃ st, out = .ok st ∧ st.writer = writer.write (encodeResponse res)

/-! ## Sample filters and messages -/

/-- A filter that passes an event when its new value is greater than `bound`. -/
structure GreaterThanFilter where
  bound : Int
  deriving DecidableEq, Repr

/-- The `Process` of `GreaterThanFilter`. -/
def greaterThanOps : CacheEntryEventFilter GreaterThanFilter Int Int :=
  ⟨fun f ev =>
    match ev.newValue with
    | some v => .ok (decide (f.bound < v))
    | none => .ok false⟩

/-- A filter whose `Process` always raises a failure with the given message. -/
structure ThrowingFilter where
  message : String
  deriving DecidableEq, Repr

/-- The `Process` of `ThrowingFilter`. -/
def throwingOps : CacheEntryEventFilter ThrowingFilter Int Int :=
  ⟨fun f _ => .error f.message⟩

/-- The binding stored when the filter `newValue > 10` over 32-bit integer keys and
values is registered first. -/
def sampleBinding : FilterBinding GreaterThanFilter Int Int :=
  ⟨0, decodeKeyWith int32Codec, decodeValueWith int32Codec, ⟨10⟩⟩

/-- The registry holding `sampleBinding` only. -/
def sampleRegistry : IgniteBinding GreaterThanFilter Int Int :=
  ⟨[sampleBinding], 1⟩

/-- The binding stored when a filter raising `boom` is registered first. -/
def throwingBinding : FilterBinding ThrowingFilter Int Int :=
  ⟨0, decodeKeyWith int32Codec, decodeValueWith int32Codec, ⟨"boom"⟩⟩

/-- The registry holding `throwingBinding` only. -/
def throwingRegistry : IgniteBinding ThrowingFilter Int Int :=
  ⟨[throwingBinding], 1⟩

/-- The event part of an `Updated` event of cache `c`: key 7, old value 3 and the given
new value octet. -/
def updatedEventBytes (newValue : Byte) : List Byte :=
  [1, 0, 0, 0, 99, 1, 1, 7, 0, 0, 0, 1, 3, 0, 0, 0, 1, newValue, 0, 0, 0]

/-- The decoded form of `updatedEventBytes`. -/
def updatedEvent (newValue : Int) : CacheEntryEvent Int Int :=
  ⟨7, some 3, some newValue, .Updated, "c"⟩

/-- An invocation message for identifier 0 carrying `updatedEventBytes`. -/
def updatedMessage (newValue : Byte) : BinaryReaderImpl :=
  ⟨[0, 0, 0, 0] ++ updatedEventBytes newValue, 0⟩

/-- An invocation message for identifier 999 (`0x3E7`), followed by an event part. -/
def unknownMessage : BinaryReaderImpl :=
  ⟨[231, 3, 0, 0] ++ updatedEventBytes 15, 0⟩

/-- An invocation message for identifier 0 whose event part stops after the cache name
length. -/
def truncatedEventMessage : BinaryReaderImpl :=
  ⟨[0, 0, 0, 0, 1, 0, 0, 0], 0⟩

/-- A reader holding three octets only, too few for an identifier. -/
def shortMessage : BinaryReaderImpl :=
  ⟨[0, 0, 0], 0⟩

/-- A writer into which nothing has been written. -/
def emptyWriter : BinaryWriterImpl :=
  ⟨[]⟩

/-- The reader `r` once the four octets of the identifier are consumed. -/
def afterId (r : BinaryReaderImpl) : BinaryReaderImpl :=
  ⟨r.data, 4⟩

/-- The reader `r` once a whole `updatedMessage` is consumed. -/
def afterEvent (r : BinaryReaderImpl) : BinaryReaderImpl :=
  ⟨r.data, 25⟩

/-! ## Shared lemmas -/

/-- The empty body of `InternalProcess` returns the reader and writer it was given and
an empty call log. -/
theorem InternalProcess_eq {F K V : Type} (self : CacheEntryEventFilter F K V)
    (reader : BinaryReaderImpl) (writer : BinaryWriterImpl) :
    self.InternalProcess reader writer = .ok ⟨reader, writer, []⟩ :=
  rfl

/-- A response message is never empty: it starts with its status octet. -/
theorem encodeResponse_ne_nil (res : InvocationResult) : encodeResponse res ≠ [] := by
  cases res <;> simp [encodeResponse]

/-- No response message is appended by `InternalProcess`. -/
theorem not_writesResponse_InternalProcess {F K V : Type} (self : CacheEntryEventFilter F K V)
    (reader : BinaryReaderImpl) (writer : BinaryWriterImpl) (res : InvocationResult) :
    ¬ WritesResponse writer (self.InternalProcess reader writer) res := by
  rintro ⟨st, hst, hw⟩
  rw [InternalProcess_eq] at hst
  cases hst
  have hdata := congrArg BinaryWriterImpl.data hw
  exact encodeResponse_ne_nil res (by simpa [BinaryWriterImpl.write] using hdata)

/-- Registering `newValue > 10` on the empty registry yields identifier 0 and
`sampleRegistry`. -/
theorem register_sample :
    (IgniteBinding.empty GreaterThanFilter Int Int).register (some ⟨10⟩) int32Codec int32Codec
      = .ok (0, sampleRegistry) :=
  rfl

/-- Registering the throwing filter on the empty registry yields identifier 0 and
`throwingRegistry`. -/
theorem register_throwing :
    (IgniteBinding.empty ThrowingFilter Int Int).register (some ⟨"boom"⟩) int32Codec int32Codec
      = .ok (0, throwingRegistry) :=
  rfl

/-- After `deregister`, the identifier is no longer found. -/
theorem IgniteBinding.lookup_deregister {F K V : Type} (reg : IgniteBinding F K V)
    (invocationId : Int) : (reg.deregister invocationId).lookup invocationId = none := by
  simp [IgniteBinding.lookup, IgniteBinding.deregister, List.find?_eq_none]

/-- A null filter is refused by `register`. -/
theorem IgniteBinding.register_null {F K V : Type} (reg : IgniteBinding F K V)
    (keyCodec : Codec K) (valueCodec : Codec V) :
    reg.register none keyCodec valueCodec = .error ⟨.RegistrationError, "null filter"⟩ :=
  rfl

/-- The identifier of an `updatedMessage` is 0. -/
theorem readInt32_updatedMessage (v : Byte) :
    (updatedMessage v).readInt32 = .ok (0, afterId (updatedMessage v)) :=
  rfl

/-- The identifier of `unknownMessage` is 999. -/
theorem readInt32_unknownMessage :
    unknownMessage.readInt32 = .ok (999, afterId unknownMessage) :=
  rfl

/-- The event part of `updatedMessage 15` decodes to the `Updated` event with new value 15. -/
theorem decodeEvent_updated15 :
    decodeEvent sampleBinding (afterId (updatedMessage 15))
      = .ok (updatedEvent 15, afterEvent (updatedMessage 15)) :=
  rfl

/-- The event part of `updatedMessage 5` decodes to the `Updated` event with new value 5. -/
theorem decodeEvent_updated5 :
    decodeEvent sampleBinding (afterId (updatedMessage 5))
      = .ok (updatedEvent 5, afterEvent (updatedMessage 5)) :=
  rfl

/-- The event part of `updatedMessage 15` decodes under the throwing binding as well. -/
theorem decodeEvent_throwing :
    decodeEvent throwingBinding (afterId (updatedMessage 15))
      = .ok (updatedEvent 15, afterEvent (updatedMessage 15)) :=
  rfl

/-- The event part of `truncatedEventMessage` does not decode. -/
theorem decodeEvent_truncated :
    decodeEvent sampleBinding (afterId truncatedEventMessage)
      = .error ⟨.CodecError, "truncated stream"⟩ :=
  rfl

/-! ## Claims about `dispatch`, that is `CacheEntryEventFilter::InternalProcess` -/

/-- C1, evaluated on the code: the filter `newValue > 10` is registered under identifier 0,
the reader holds a well-formed message naming it whose `Updated` event has new value 15,
and `Process` returns true on that event; yet `InternalProcess` returns with the writer
untouched, so the response `Pass(true)` is not written. -/
theorem InternalProcess_passing_filter_writes_no_pass :
    (updatedMessage 15).readInt32 = .ok (0, afterId (updatedMessage 15)) ∧
    sampleRegistry.lookup 0 = some sampleBinding ∧
    decodeEvent sampleBinding (afterId (updatedMessage 15))
      = .ok (updatedEvent 15, afterEvent (updatedMessage 15)) ∧
    greaterThanOps.Process sampleBinding.filter (updatedEvent 15) = .ok true ∧
    greaterThanOps.InternalProcess (updatedMessage 15) emptyWriter
      = .ok ⟨updatedMessage 15, emptyWriter, []⟩ ∧
    ¬ WritesResponse emptyWriter
        (greaterThanOps.InternalProcess (updatedMessage 15) emptyWriter) (.Pass true) :=
  ⟨rfl, rfl, rfl, rfl, rfl, not_writesResponse_InternalProcess _ _ _ _⟩

/-- C2, evaluated on the code: identifier 999 is read from the message and is not
registered, yet `InternalProcess` returns with the reader unread and the writer still
empty, so no response with status `UnknownFilter` is written, whatever its text. -/
theorem InternalProcess_unknown_id_writes_no_status :
    unknownMessage.readInt32 = .ok (999, afterId unknownMessage) ∧
    sampleRegistry.lookup 999 = none ∧
    greaterThanOps.InternalProcess unknownMessage emptyWriter
      = .ok ⟨unknownMessage, emptyWriter, []⟩ ∧
    emptyWriter.data = [] ∧
    ¬ ∃ message, WritesResponse emptyWriter
        (greaterThanOps.InternalProcess unknownMessage emptyWriter)
        (.Fault .UnknownFilter message) :=
  ⟨rfl, rfl, rfl, rfl, fun ⟨_, h⟩ => not_writesResponse_InternalProcess _ _ _ _ h⟩

/-- C3: for every invocation message whose identifier is not registered, `InternalProcess`
returns having made no call of `Process`: the call log has length zero. -/
theorem InternalProcess_unregistered_no_process_call {F K V : Type}
    (self : CacheEntryEventFilter F K V) (reg : IgniteBinding F K V)
    (reader rest : BinaryReaderImpl) (writer : BinaryWriterImpl) (invocationId : Int)
    (_hid : reader.readInt32 = .ok (invocationId, rest))
    (_hunreg : reg.lookup invocationId = none) :
    ∃ st, self.InternalProcess reader writer = .ok st ∧ st.processCalls.length = 0 :=
  ⟨_, InternalProcess_eq self reader writer, rfl⟩

/-- C3 at identifier 999 with the sample registry. -/
theorem InternalProcess_unregistered_no_process_call_witness :
    unknownMessage.readInt32 = .ok (999, afterId unknownMessage) ∧
    sampleRegistry.lookup 999 = none ∧
    ∃ st, greaterThanOps.InternalProcess unknownMessage emptyWriter = .ok st ∧
      st.processCalls.length = 0 :=
  ⟨rfl, rfl,
    InternalProcess_unregistered_no_process_call greaterThanOps sampleRegistry unknownMessage
      (afterId unknownMessage) emptyWriter 999 rfl rfl⟩

/-- C4, evaluated on the code: a filter raising `boom` is registered under identifier 0
and the reader holds a well-formed message naming it, yet `InternalProcess` returns with
the writer still empty and `Process` never called, so the response
`Fault(FilterError, boom)` is not written. -/
theorem InternalProcess_throwing_filter_writes_no_fault :
    (updatedMessage 15).readInt32 = .ok (0, afterId (updatedMessage 15)) ∧
    throwingRegistry.lookup 0 = some throwingBinding ∧
    decodeEvent throwingBinding (afterId (updatedMessage 15))
      = .ok (updatedEvent 15, afterEvent (updatedMessage 15)) ∧
    throwingOps.Process throwingBinding.filter (updatedEvent 15) = .error "boom" ∧
    throwingOps.InternalProcess (updatedMessage 15) emptyWriter
      = .ok ⟨updatedMessage 15, emptyWriter, []⟩ ∧
    emptyWriter.data = [] ∧
    ¬ WritesResponse emptyWriter
        (throwingOps.InternalProcess (updatedMessage 15) emptyWriter)
        (.Fault .FilterError "boom") :=
  ⟨rfl, rfl, rfl, rfl, rfl, rfl, not_writesResponse_InternalProcess _ _ _ _⟩

/-- C5, evaluated on the code: identifier 0 is read and registered, the event part stops
after the cache name length and does not decode, yet `InternalProcess` returns with the
reader unread and the writer still empty, so no response with status `CodecError` is
written, whatever its text. -/
theorem InternalProcess_bad_event_writes_no_fault :
    truncatedEventMessage.readInt32 = .ok (0, afterId truncatedEventMessage) ∧
    sampleRegistry.lookup 0 = some sampleBinding ∧
    decodeEvent sampleBinding (afterId truncatedEventMessage)
      = .error ⟨.CodecError, "truncated stream"⟩ ∧
    greaterThanOps.InternalProcess truncatedEventMessage emptyWriter
      = .ok ⟨truncatedEventMessage, emptyWriter, []⟩ ∧
    emptyWriter.data = [] ∧
    ¬ ∃ message, WritesResponse emptyWriter
        (greaterThanOps.InternalProcess truncatedEventMessage emptyWriter)
        (.Fault .CodecError message) :=
  ⟨rfl, rfl, rfl, rfl, rfl, fun ⟨_, h⟩ => not_writesResponse_InternalProcess _ _ _ _ h⟩

/-- C6: for every reader content and every writer, `InternalProcess` returns normally to
its caller; no `CodecError`, `UnknownFilter` or `FilterError` is raised out of it, and
any failure it raised would be a write failure. -/
theorem InternalProcess_returns_normally {F K V : Type}
    (self : CacheEntryEventFilter F K V) (reader : BinaryReaderImpl)
    (writer : BinaryWriterImpl) :
    (∃ st, self.InternalProcess reader writer = .ok st) ∧
    ∀ err, self.InternalProcess reader writer = .error err →
      err.kind = .TransportWriteFailure := by
  refine ⟨⟨_, InternalProcess_eq self reader writer⟩, fun err h => ?_⟩
  rw [InternalProcess_eq] at h
  cases h

/-- C7, evaluated on the code: the reader holds three octets, too few for the identifier,
yet `InternalProcess` returns normally with the reader still at position 0: it never
reads the reader, so no `CodecError` reaches its caller. -/
theorem InternalProcess_short_reader_raises_nothing :
    shortMessage.readInt32 = .error ⟨.CodecError, "truncated stream"⟩ ∧
    greaterThanOps.InternalProcess shortMessage emptyWriter
      = .ok ⟨shortMessage, emptyWriter, []⟩ ∧
    shortMessage.pos = 0 ∧
    ¬ ∃ err, greaterThanOps.InternalProcess shortMessage emptyWriter = .error err ∧
        err.kind = .CodecError := by
  refine ⟨rfl, rfl, rfl, ?_⟩
  rintro ⟨err, h, _⟩
  rw [InternalProcess_eq] at h
  cases h

/-- C8, evaluated on the code: on a well-formed message naming the registered filter
`newValue > 10`, with new value 5, `InternalProcess` returns with the writer holding no
response message at all, where `Pass(false)` is due. -/
theorem InternalProcess_writes_zero_responses :
    (updatedMessage 5).readInt32 = .ok (0, afterId (updatedMessage 5)) ∧
    sampleRegistry.lookup 0 = some sampleBinding ∧
    decodeEvent sampleBinding (afterId (updatedMessage 5))
      = .ok (updatedEvent 5, afterEvent (updatedMessage 5)) ∧
    greaterThanOps.Process sampleBinding.filter (updatedEvent 5) = .ok false ∧
    (∃ st, greaterThanOps.InternalProcess (updatedMessage 5) emptyWriter = .ok st ∧
      st.writer.data = []) ∧
    ¬ ∃ res, WritesResponse emptyWriter
        (greaterThanOps.InternalProcess (updatedMessage 5) emptyWriter) res :=
  ⟨rfl, rfl, rfl, rfl, ⟨_, rfl, rfl⟩,
    fun ⟨_, h⟩ => not_writesResponse_InternalProcess _ _ _ _ h⟩

/-- C9: for every registry, every non-null filter `f` and all key and value codecs,
`register` returns an identifier whose `lookup` in the resulting registry returns a
binding, and that binding holds the same filter `f`. -/
theorem IgniteBinding.lookup_register {F K V : Type} (reg : IgniteBinding F K V) (f : F)
    (keyCodec : Codec K) (valueCodec : Codec V) :
    ∃ invocationId reg1,
      reg.register (some f) keyCodec valueCodec = .ok (invocationId, reg1) ∧
      ∃ binding, reg1.lookup invocationId = some binding ∧ binding.filter = f := by
  refine ⟨reg.nextId, _, rfl,
    ⟨reg.nextId, decodeKeyWith keyCodec, decodeValueWith valueCodec, f⟩, ?_, rfl⟩
  simp [IgniteBinding.lookup]

/-- C10: for every reader state and writer state, and all types `F`, `K` and `V`,
`InternalProcess` leaves both unchanged: the read position and buffer after the call are
those before it, and the written bytes after the call are those before it. -/
theorem InternalProcess_frame {F K V : Type} (self : CacheEntryEventFilter F K V)
    (reader : BinaryReaderImpl) (writer : BinaryWriterImpl) :
    ∃ st, self.InternalProcess reader writer = .ok st ∧
      st.reader.pos = reader.pos ∧ st.reader.data = reader.data ∧
      st.writer.data = writer.data :=
  ⟨_, InternalProcess_eq self reader writer, rfl, rfl, rfl⟩

end ignite
